import Mathlib

/-!
# Engine configuration handlers of the JWKS Vault backend

A shallow embedding of `vault_backend/engine_config.go`: the four request
handlers `EngineConfigExistenceCheck`, `EngineConfigWrite`, `EngineConfigRead`
and `EngineConfigDelete`, the field schema declared by `engineConfigPath`,
and the parts of the Vault SDK they call (storage, field data, JSON codec),
followed by theorems about them.

Conventions of the embedding:
* a Go handler returning `(*logical.Response, error)` becomes a function
  returning a `Result Response` together with the storage after the call;
  a run-time panic (index out of range, failed single-value type assertion,
  nil dereference) is the third outcome `Result.panic`;
* `req.Storage` is an in-memory key/value map with an injected error for each
  key and operation, so that failing `Get`, `Put` and `Delete` calls can be
  expressed;
* library functions whose code is outside the repository (the JSON codec,
  the PEM encoder) are fields of `Libs`; the key material produced by the
  random key generator is the input `KeyMaterial`.
-/

namespace VaultBackend

/-! ## Data model -/

deriving instance DecidableEq for Except

/-- Byte strings (`[]byte`), one natural number per byte. -/
abbrev Bytes := List Nat

/-- The record `EngineConfigStorage` of `engine_config.go`. -/
structure EngineConfigStorage where
  Id : String
  AllowedSubjects : List String
  Issuer : String
  Audience : String
  TTL : Int
  deriving DecidableEq, Repr

/-- Outcome of a handler: a value with a nil error, a non-nil error, or a
run-time panic. -/
inductive Result (α : Type) where
  | ok (value : α)
  | error (msg : String)
  | panic (msg : String)
  deriving DecidableEq, Repr

/-- Whether the handler returned a value with a nil error. -/
def Result.isOk {α : Type} : Result α → Bool
  | .ok _ => true
  | _ => false

/-- Whether the handler returned a non-nil error (and did not panic). -/
def Result.isError {α : Type} : Result α → Bool
  | .error _ => true
  | _ => false

/-- Dynamic values (`interface{}`) as returned by `framework.FieldData.Get`,
tagged by their dynamic type. -/
inductive Dyn where
  | nil
  | bool (b : Bool)
  | int (n : Int)
  | string (s : String)
  | stringSlice (xs : List String)
  | ifaceSlice (xs : List Dyn)
  deriving Repr

/-- The value stored under `"config"` in a response's `Data` map. -/
inductive RespValue where
  | string (s : String)
  | config (c : EngineConfigStorage)
  deriving DecidableEq, Repr

/-- The type `logical.Response`, reduced to its `Data` map. -/
structure Response where
  Data : List (String × RespValue)
  deriving DecidableEq, Repr

/-- The type `logical.StorageEntry`. -/
structure StorageEntry where
  Key : String
  Value : Bytes
  deriving DecidableEq, Repr

/-! ## The storage interface -/

/-- An implementation of `logical.Storage`: the stored entries, and for each
operation and key the error that operation returns there (`none`: it
succeeds). -/
structure Storage where
  entries : String → Option Bytes
  getErr : String → Option String
  putErr : String → Option String
  deleteErr : String → Option String

namespace Storage

/-- The storage with no entries in which every operation succeeds. -/
def empty : Storage :=
  { entries := fun _ => none, getErr := fun _ => none,
    putErr := fun _ => none, deleteErr := fun _ => none }

/-- Method `Storage.Get`: the entry under `key` (nil when absent), or an
error. -/
def Get (s : Storage) (key : String) : Except String (Option StorageEntry) :=
  match s.getErr key with
  | some e => .error e
  | none =>
    match s.entries key with
    | none => .ok none
    | some v => .ok (some { Key := key, Value := v })

/-- Method `Storage.Put`: the returned error (`none` for nil) and the storage
afterwards; a failed put stores nothing. -/
def Put (s : Storage) (entry : StorageEntry) : Option String × Storage :=
  match s.putErr entry.Key with
  | some e => (some e, s)
  | none =>
    (none, { s with entries := fun k => if k = entry.Key then some entry.Value else s.entries k })

/-- Method `Storage.Delete`: the returned error and the storage afterwards;
deleting an absent key succeeds, a failed delete removes nothing. -/
def Delete (s : Storage) (key : String) : Option String × Storage :=
  match s.deleteErr key with
  | some e => (some e, s)
  | none => (none, { s with entries := fun k => if k = key then none else s.entries k })

/-- A key is present when an entry is stored under it. -/
def present (s : Storage) (key : String) : Bool := (s.entries key).isSome

end Storage

/-- The type `logical.Request`, reduced to the fields the handlers use. -/
structure Request where
  Path : String
  Storage : Storage

/-- The type `framework.FieldData`, seen through its method `Get`: the value
of a field, or `none` when `Get` panics. -/
structure FieldData where
  Get : String → Option Dyn

/-- Library functions called by the handlers whose code is outside the
repository: the JSON encoder behind `logical.StorageEntryJSON`, the decoder
behind `StorageEntry.DecodeJSON`, and `pem.EncodeToMemory` (block type and
bytes to PEM text). -/
structure Libs where
  EncodeJSON : EngineConfigStorage → Except String Bytes
  DecodeJSON : Bytes → Except String EngineConfigStorage
  EncodeToMemory : String → Bytes → Bytes

/-- What the key generation of one `EngineConfigWrite` call produced:
`x509.MarshalPKCS1PrivateKey(private_key)` and the result of
`x509.MarshalPKIXPublicKey(&public_key)`. -/
structure KeyMaterial where
  privKeyBytes : Bytes
  pubKeyBytes : Except String Bytes

/-! ## `strings.Split` and the engine id -/

/-- Split a character list at every occurrence of `sep`; `n` separators give
`n + 1` pieces. -/
def splitChars (sep : Char) : List Char → List (List Char)
  | [] => [[]]
  | c :: cs =>
    if c = sep then [] :: splitChars sep cs
    else
      match splitChars sep cs with
      | [] => [[c]]
      | piece :: rest => (c :: piece) :: rest

/-- Function `strings.Split(s, sep)` for a one-character separator. -/
def strings_Split (s : String) (sep : Char) : List String :=
  (splitChars sep s.data).map String.mk

/-- The local `jwt_engine := strings.Split(req.Path, "/")[1]` of every
handler; `none` when the index is out of range (the handler panics). -/
def jwt_engine (req : Request) : Option String :=
  (strings_Split req.Path '/').get? 1

/-! ## Type assertions -/

/-- The assertion `v.([]string)`. -/
def assertStringSlice : Dyn → Option (List String)
  | .stringSlice xs => some xs
  | _ => none

/-- The assertion `v.(string)`. -/
def assertString : Dyn → Option String
  | .string s => some s
  | _ => none

/-- The assertion `v.(int)`. -/
def assertInt : Dyn → Option Int
  | .int n => some n
  | _ => none

/-! ## The path declaration -/

/-- Field types of the framework used by `engineConfigPath`. -/
inductive FieldType where
  | TypeString
  | TypeDurationSecond
  | TypeCommaStringSlice
  deriving DecidableEq, Repr

/-- The `Fields` map of `engineConfigPath`: each declared field name with its
type. -/
def engineConfigPath_Fields : List (String × FieldType) :=
  [ ("TTL", .TypeDurationSecond),
    ("Audience", .TypeString),
    ("Issuer", .TypeString),
    ("Allowed_Subjects", .TypeCommaStringSlice) ]

/-! ## The handlers -/

/-- Handler `EngineConfigExistenceCheck`: the returned pair `(bool, error)`;
`none` when the handler panics on the path. -/
def EngineConfigExistenceCheck (req : Request) (_data : FieldData) :
    Option (Bool × Option String) :=
  match jwt_engine req with
  | none => none
  | some jwt_engine =>
    match req.Storage.Get ("config/" ++ jwt_engine) with
    | .error err => some (false, some err)
    | .ok none => some (false, none)
    | .ok (some _) => some (true, none)

/-- Handler `EngineConfigWrite`: its result and the storage afterwards. -/
def EngineConfigWrite (libs : Libs) (keys : KeyMaterial) (req : Request) (data : FieldData) :
    Result Response × Storage :=
  match jwt_engine req with
  | none => (.panic "index out of range", req.Storage)
  | some jwt_engine =>
    match data.Get "allowed_subjects" with
    | none => (.panic "FieldData.Get", req.Storage)
    | some v1 =>
    match assertStringSlice v1 with
    | none => (.error "Subject must be a string", req.Storage)
    | some allowed_subjects =>
    match data.Get "issuer" with
    | none => (.panic "FieldData.Get", req.Storage)
    | some v2 =>
    match assertString v2 with
    | none => (.error "Issuer must be a string", req.Storage)
    | some issuer =>
    match data.Get "audience" with
    | none => (.panic "FieldData.Get", req.Storage)
    | some v3 =>
    match assertString v3 with
    | none => (.error "Audience must be a string", req.Storage)
    | some audience =>
    match data.Get "expiration" with
    | none => (.panic "FieldData.Get", req.Storage)
    | some v4 =>
    match assertInt v4 with
    | none => (.error "Expiration must be an int", req.Storage)
    | some expiration =>
    let privKeyPem := libs.EncodeToMemory "RSA PRIVATE KEY" keys.privKeyBytes
    match keys.pubKeyBytes with
    | .error err => (.error err, req.Storage)
    | .ok pubKeyBytes =>
    -- the error returned by this put is discarded
    let s1 := (req.Storage.Put { Key := "private_key" ++ jwt_engine, Value := privKeyPem }).2
    let pubKeyPem := libs.EncodeToMemory "RSA PUBLIC KEY" pubKeyBytes
    -- the error returned by this put is discarded
    let s2 := (s1.Put { Key := "public_key" ++ jwt_engine, Value := pubKeyPem }).2
    match libs.EncodeJSON
        { Id := jwt_engine, AllowedSubjects := allowed_subjects, Issuer := issuer,
          Audience := audience, TTL := expiration } with
    | .error err => (.error err, s2)
    | .ok encoded =>
    match s2.Put { Key := "config/" ++ jwt_engine, Value := encoded } with
    | (some err, s3) => (.error err, s3)
    | (none, s3) => (.ok { Data := [("config", .string "Config Set")] }, s3)

/-- The loop `for _, subject := range config.AllowedSubjects` of
`EngineConfigRead`: the response returned from inside the loop, or `none`
when the loop runs to its end. -/
def scanAllowedSubjects (role : String) (config : EngineConfigStorage) :
    List String → Option Response
  | [] => none
  | subject :: rest =>
    if subject = role then some { Data := [("config", .config config)] }
    else scanAllowedSubjects role config rest

/-- Handler `EngineConfigRead`: its result and the storage afterwards. -/
def EngineConfigRead (libs : Libs) (req : Request) (data : FieldData) :
    Result Response × Storage :=
  match data.Get "role" with
  | none => (.panic "FieldData.Get", req.Storage)
  | some v =>
  match assertString v with
  | none => (.panic "interface conversion", req.Storage)
  | some role =>
  match jwt_engine req with
  | none => (.panic "index out of range", req.Storage)
  | some jwt_engine =>
  if role = "root" then
    match req.Storage.Get ("config/" ++ jwt_engine) with
    | .error err => (.error err, req.Storage)
    | .ok none => (.error ("No config found for engine " ++ jwt_engine), req.Storage)
    | .ok (some entry) =>
      match libs.DecodeJSON entry.Value with
      | .error err => (.error err, req.Storage)
      | .ok config => (.ok { Data := [("config", .config config)] }, req.Storage)
  else
    match req.Storage.Get ("config/" ++ jwt_engine) with
    | .error err => (.error err, req.Storage)
    -- no nil check on this branch: `entry.DecodeJSON` reads `entry.Value`
    | .ok none => (.panic "nil pointer dereference", req.Storage)
    | .ok (some entry) =>
      match libs.DecodeJSON entry.Value with
      | .error err => (.error err, req.Storage)
      | .ok config =>
        match scanAllowedSubjects role config config.AllowedSubjects with
        | some resp => (.ok resp, req.Storage)
        | none =>
          (.error ("User " ++ role ++ " does not have access to engine " ++ jwt_engine),
            req.Storage)

/-- Handler `EngineConfigDelete`: its result and the storage afterwards. The
errors returned by the three deletes are discarded. -/
def EngineConfigDelete (req : Request) (_data : FieldData) : Result Response × Storage :=
  match jwt_engine req with
  | none => (.panic "index out of range", req.Storage)
  | some jwt_engine =>
    let private_key_to_delete := "private_key" ++ jwt_engine
    let s1 := (req.Storage.Delete private_key_to_delete).2
    let public_key_to_delete := "public_key" ++ jwt_engine
    let s2 := (s1.Delete public_key_to_delete).2
    let config_to_delete := "config/" ++ jwt_engine
    let s3 := (s2.Delete config_to_delete).2
    (.ok { Data := [("config", .string "Config Deleted")] }, s3)

/-! ## Notions used in the statements -/

/-- The three storage keys derived from an engine id by `EngineConfigWrite`
and `EngineConfigDelete`. -/
def engineKeys (e : String) : List String :=
  ["private_key" ++ e, "public_key" ++ e, "config/" ++ e]

/-- The storage after the two key puts of `EngineConfigWrite`. -/
def afterKeyPuts (libs : Libs) (keys : KeyMaterial) (s : Storage) (e : String)
    (pubKeyBytes : Bytes) : Storage :=
  ((s.Put { Key := "private_key" ++ e,
            Value := libs.EncodeToMemory "RSA PRIVATE KEY" keys.privKeyBytes }).2.Put
      { Key := "public_key" ++ e, Value := libs.EncodeToMemory "RSA PUBLIC KEY" pubKeyBytes }).2

/-- Storages reachable from an empty storage, whose puts and deletes succeed,
by calls of `EngineConfigWrite` and `EngineConfigDelete` with any path, any
field data and any key material. -/
inductive Reachable (libs : Libs) : Storage → Prop where
  | init (s : Storage) (hentries : ∀ k, s.entries k = none)
      (hput : ∀ k, s.putErr k = none) (hdelete : ∀ k, s.deleteErr k = none) :
      Reachable libs s
  | write (s : Storage) (keys : KeyMaterial) (path : String) (data : FieldData)
      (h : Reachable libs s) :
      Reachable libs (EngineConfigWrite libs keys { Path := path, Storage := s } data).2
  | delete (s : Storage) (path : String) (data : FieldData) (h : Reachable libs s) :
      Reachable libs (EngineConfigDelete { Path := path, Storage := s } data).2

/-- The invariant of the data model at one engine id: the config record is
present exactly when both key envelopes are. -/
def tripletInv (s : Storage) (e : String) : Prop :=
  s.present ("config/" ++ e) = true ↔
    (s.present ("private_key" ++ e) = true ∧ s.present ("public_key" ++ e) = true)

/-- The invariant carried along a run: puts and deletes keep succeeding and
every engine id satisfies `tripletInv`. -/
def runInv (s : Storage) : Prop :=
  (∀ k, s.putErr k = none) ∧ (∀ k, s.deleteErr k = none) ∧ ∀ e, tripletInv s e

/-- A handler result depends on the field `k` when two field data that agree
on every other field give different results: the handler looks `k` up. -/
def dependsOn {α : Type} (handler : FieldData → α) (k : String) : Prop :=
  ∃ d1 d2 : FieldData, (∀ k2, k2 ≠ k → d1.Get k2 = d2.Get k2) ∧ handler d1 ≠ handler d2

/-- The field names declared by `engineConfigPath`. -/
def declaredFields : List String := engineConfigPath_Fields.map Prod.fst

/-! ## Concrete inputs for the examples -/

/-- Field data holding an engine configuration payload and a caller role. -/
def payload (subjects : Dyn) (issuer audience expiration role : Dyn) : FieldData :=
  { Get := fun k =>
      if k = "allowed_subjects" then some subjects
      else if k = "issuer" then some issuer
      else if k = "audience" then some audience
      else if k = "expiration" then some expiration
      else if k = "role" then some role
      else none }

/-- Length-prefixed encoding of a string. -/
def encodeString (s : String) : Bytes := s.length :: s.data.map Char.toNat

/-- Length-prefixed encodings of strings, one after the other. -/
def encodeStrings : List String → Bytes
  | [] => []
  | s :: rest => encodeString s ++ encodeStrings rest

/-- Read back one length-prefixed string. -/
def decodeString : Bytes → Option (String × Bytes)
  | [] => none
  | n :: rest =>
    if rest.length < n then none
    else some (String.mk ((rest.take n).map Char.ofNat), rest.drop n)

/-- Read back `n` length-prefixed strings. -/
def decodeStrings : Nat → Bytes → Option (List String × Bytes)
  | 0, bs => some ([], bs)
  | n + 1, bs =>
    match decodeString bs with
    | none => none
    | some (s, rest) =>
      match decodeStrings n rest with
      | none => none
      | some (ss, rest2) => some (s :: ss, rest2)

/-- A record encoder for the examples: every field length-prefixed, the TTL
as sign and magnitude. -/
def demoEncode (c : EngineConfigStorage) : Bytes :=
  encodeString c.Id ++ (c.AllowedSubjects.length :: encodeStrings c.AllowedSubjects) ++
    encodeString c.Issuer ++ encodeString c.Audience ++
    (match c.TTL with
     | Int.ofNat n => [0, n]
     | Int.negSucc n => [1, n])

/-- The decoder matching `demoEncode`. -/
def demoDecode (bs : Bytes) : Except String EngineConfigStorage :=
  match decodeString bs with
  | none => .error "bad id"
  | some (_, []) => .error "no subjects"
  | some (id, n :: r1) =>
    match decodeStrings n r1 with
    | none => .error "bad subjects"
    | some (subjects, r2) =>
      match decodeString r2 with
      | none => .error "bad issuer"
      | some (issuer, r3) =>
        match decodeString r3 with
        | none => .error "bad audience"
        | some (audience, [0, n]) =>
          .ok { Id := id, AllowedSubjects := subjects, Issuer := issuer, Audience := audience,
                TTL := Int.ofNat n }
        | some (audience, [1, n]) =>
          .ok { Id := id, AllowedSubjects := subjects, Issuer := issuer, Audience := audience,
                TTL := Int.negSucc n }
        | some _ => .error "bad ttl"

/-- Library functions for the examples; they stand in for `encoding/json`
and `encoding/pem`: a length-prefixed record codec, and a PEM encoder that
puts the length of the block type in front of the bytes. -/
def demoLibs : Libs :=
  { EncodeJSON := fun c => .ok (demoEncode c)
    DecodeJSON := demoDecode
    EncodeToMemory := fun ty bytes => ty.length :: bytes }

/-- Key material for the examples. -/
def demoKeys : KeyMaterial := { privKeyBytes := [1, 2, 3], pubKeyBytes := .ok [4, 5] }

/-- The record written in the examples. -/
def bobConfig : EngineConfigStorage :=
  { Id := "e1", AllowedSubjects := ["bob"], Issuer := "vault", Audience := "vault", TTL := 3600 }

/-- The well-typed payload of the examples, sent by `role`. -/
def bobPayload (role : String) : FieldData :=
  payload (.stringSlice ["bob"]) (.string "vault") (.string "vault") (.int 3600) (.string role)

/-- The storage after writing `bobPayload` to engine `e1` on the empty
storage. -/
def bobStorage : Storage :=
  (EngineConfigWrite demoLibs demoKeys { Path := "config/e1", Storage := Storage.empty }
    (bobPayload "root")).2

/-- The storage in which engine `e1` has the allow-list `["alice"]`. -/
def aliceStorage : Storage :=
  (EngineConfigWrite demoLibs demoKeys { Path := "config/e1", Storage := Storage.empty }
    (payload (.stringSlice ["alice"]) (.string "vault") (.string "vault") (.int 3600) .nil)).2

/-- The record stored for engine `e1` in `aliceStorage`. -/
def aliceConfig : EngineConfigStorage :=
  { Id := "e1", AllowedSubjects := ["alice"], Issuer := "vault", Audience := "vault",
    TTL := 3600 }

/-- The empty storage in which the puts of both key envelopes of engine `e1`
fail. -/
def keyPutsFail : Storage :=
  { Storage.empty with
    putErr := fun k =>
      if k = "private_keye1" then some "put failed"
      else if k = "public_keye1" then some "put failed" else none }

/-- The storage holding engine `e1` in which every delete fails. -/
def deletesFail : Storage :=
  { bobStorage with deleteErr := fun _ => some "delete failed" }

/-- The empty storage in which every put and delete succeeds and every get
fails. -/
def getsFail : Storage :=
  { Storage.empty with getErr := fun _ => some "get failed" }

/-- Replace every character outside ASCII by U+FFFD. -/
def coerceString (s : String) : String :=
  String.mk (s.data.map fun c => if c.toNat < 128 then c else Char.ofNat 0xFFFD)

/-- A codec that does not give every record back: its encoder writes U+FFFD
for what it does not keep, the way `encoding/json` does for the bytes of a Go
string that are not valid UTF-8 (such a Go string, `"b\xffb"` say, is not a
value of `String`; here the characters outside ASCII play that part). -/
def lossyLibs : Libs :=
  { demoLibs with
    EncodeJSON := fun c =>
      .ok (demoEncode
        { Id := coerceString c.Id, AllowedSubjects := c.AllowedSubjects.map coerceString,
          Issuer := coerceString c.Issuer, Audience := coerceString c.Audience, TTL := c.TTL }) }

/-- A well-typed payload whose only allowed subject `bÿb` is changed by the
encoder of `lossyLibs`, sent by `role`. -/
def lossyPayload (role : String) : FieldData :=
  payload (.stringSlice ["bÿb"]) (.string "vault") (.string "vault") (.int 3600) (.string role)

/-! ## Lemmas on storage keys -/

theorem string_append_left_cancel (p a b : String) (h : p ++ a = p ++ b) : a = b := by
  have h2 := congrArg String.data h
  simp only [String.data_append] at h2
  exact String.ext (List.append_cancel_left h2)

theorem private_ne_public (a b : String) : "private_key" ++ a ≠ "public_key" ++ b := by
  intro h
  have h2 := congrArg String.data h
  simp [String.data_append] at h2

theorem private_ne_config (a b : String) : "private_key" ++ a ≠ "config/" ++ b := by
  intro h
  have h2 := congrArg String.data h
  simp [String.data_append] at h2

theorem public_ne_config (a b : String) : "public_key" ++ a ≠ "config/" ++ b := by
  intro h
  have h2 := congrArg String.data h
  simp [String.data_append] at h2

theorem splitChars_of_not_mem (sep : Char) (l : List Char) (h : sep ∉ l) :
    splitChars sep l = [l] := by
  induction l with
  | nil => rfl
  | cons c cs ih =>
    have hc : ¬ c = sep := fun h2 => h (by simp [h2])
    have hcs : sep ∉ cs := fun h2 => h (List.mem_cons_of_mem c h2)
    simp [splitChars, hc, ih hcs]

/-- Every engine id without a slash is the engine id of the path
`config/<id>`. -/
theorem jwt_engine_config_path (e : String) (s : Storage) (h : '/' ∉ e.data) :
    jwt_engine { Path := "config/" ++ e, Storage := s } = some e := by
  have hd : ("config/" ++ e).data = 'c' :: 'o' :: 'n' :: 'f' :: 'i' :: 'g' :: '/' :: e.data := by
    rw [String.data_append]
    rfl
  unfold jwt_engine strings_Split
  simp only [hd]
  simp [splitChars, splitChars_of_not_mem '/' e.data h]

theorem scanAllowedSubjects_eq (role : String) (config : EngineConfigStorage)
    (subjects : List String) :
    scanAllowedSubjects role config subjects =
      if role ∈ subjects then some { Data := [("config", .config config)] } else none := by
  induction subjects with
  | nil => simp [scanAllowedSubjects]
  | cons subject rest ih =>
    by_cases h : subject = role
    · simp [scanAllowedSubjects, h]
    · have h2 : ¬ role = subject := fun h3 => h h3.symm
      simp [scanAllowedSubjects, h, h2, ih]

/-- What `EngineConfigRead` returns once the caller role, the engine id, the
stored entry and its decoding are known. -/
theorem EngineConfigRead_eq (libs : Libs) (req : Request) (data : FieldData)
    (role e : String) (entry : StorageEntry) (c : EngineConfigStorage)
    (hrole : data.Get "role" = some (.string role))
    (he : jwt_engine req = some e)
    (hget : req.Storage.Get ("config/" ++ e) = .ok (some entry))
    (hdec : libs.DecodeJSON entry.Value = .ok c) :
    EngineConfigRead libs req data =
      (if role = "root" ∨ role ∈ c.AllowedSubjects then
        .ok { Data := [("config", .config c)] }
      else .error ("User " ++ role ++ " does not have access to engine " ++ e), req.Storage) := by
  unfold EngineConfigRead
  simp only [hrole, assertString, he, hget, hdec, scanAllowedSubjects_eq]
  by_cases hroot : role = "root"
  · simp [hroot]
  · by_cases hmem : role ∈ c.AllowedSubjects
    · simp [hroot, hmem]
    · simp [hroot, hmem]

/-! ## Lemmas on the storage operations -/

theorem Put_getErr (s : Storage) (entry : StorageEntry) : (s.Put entry).2.getErr = s.getErr := by
  unfold Storage.Put
  cases h : s.putErr entry.Key <;> rfl

theorem Put_putErr (s : Storage) (entry : StorageEntry) : (s.Put entry).2.putErr = s.putErr := by
  unfold Storage.Put
  cases h : s.putErr entry.Key <;> rfl

theorem Put_deleteErr (s : Storage) (entry : StorageEntry) :
    (s.Put entry).2.deleteErr = s.deleteErr := by
  unfold Storage.Put
  cases h : s.putErr entry.Key <;> rfl

theorem Put_entries_of_ne (s : Storage) (entry : StorageEntry) (k : String)
    (hk : k ≠ entry.Key) : (s.Put entry).2.entries k = s.entries k := by
  unfold Storage.Put
  cases h : s.putErr entry.Key
  · simp [hk]
  · rfl

theorem Put_entries_self (s : Storage) (entry : StorageEntry)
    (hput : s.putErr entry.Key = none) :
    (s.Put entry).2.entries entry.Key = some entry.Value := by
  unfold Storage.Put
  simp [hput]

theorem Put_fst_eq (s : Storage) (entry : StorageEntry) : (s.Put entry).1 = s.putErr entry.Key := by
  unfold Storage.Put
  cases h : s.putErr entry.Key <;> rfl

theorem Delete_getErr (s : Storage) (key : String) : (s.Delete key).2.getErr = s.getErr := by
  unfold Storage.Delete
  cases h : s.deleteErr key <;> rfl

theorem Delete_putErr (s : Storage) (key : String) : (s.Delete key).2.putErr = s.putErr := by
  unfold Storage.Delete
  cases h : s.deleteErr key <;> rfl

theorem Delete_deleteErr (s : Storage) (key : String) :
    (s.Delete key).2.deleteErr = s.deleteErr := by
  unfold Storage.Delete
  cases h : s.deleteErr key <;> rfl

theorem Delete_entries_of_ne (s : Storage) (key k : String) (hk : k ≠ key) :
    (s.Delete key).2.entries k = s.entries k := by
  unfold Storage.Delete
  cases h : s.deleteErr key
  · simp [hk]
  · rfl

theorem Delete_entries_self (s : Storage) (key : String) (hdel : s.deleteErr key = none) :
    (s.Delete key).2.entries key = none := by
  unfold Storage.Delete
  simp [hdel]

/-- What `EngineConfigWrite` does on a well-typed payload. -/
theorem EngineConfigWrite_typed (libs : Libs) (keys : KeyMaterial) (req : Request)
    (data : FieldData) (e : String) (s : List String) (i a : String) (t : Int)
    (he : jwt_engine req = some e)
    (hs : data.Get "allowed_subjects" = some (.stringSlice s))
    (hi : data.Get "issuer" = some (.string i))
    (ha : data.Get "audience" = some (.string a))
    (ht : data.Get "expiration" = some (.int t)) :
    EngineConfigWrite libs keys req data =
      match keys.pubKeyBytes with
      | .error err => (.error err, req.Storage)
      | .ok pubKeyBytes =>
        match libs.EncodeJSON
            { Id := e, AllowedSubjects := s, Issuer := i, Audience := a, TTL := t } with
        | .error err => (.error err, afterKeyPuts libs keys req.Storage e pubKeyBytes)
        | .ok encoded =>
          match (afterKeyPuts libs keys req.Storage e pubKeyBytes).Put
              { Key := "config/" ++ e, Value := encoded } with
          | (some err, s3) => (.error err, s3)
          | (none, s3) => (.ok { Data := [("config", .string "Config Set")] }, s3) := by
  unfold EngineConfigWrite
  simp only [he, hs, hi, ha, ht, assertStringSlice, assertString, assertInt, afterKeyPuts]

/-- The storage after `EngineConfigWrite` is the one before, or the one after
the two key puts, or the one after all three puts. -/
theorem EngineConfigWrite_storage_cases (libs : Libs) (keys : KeyMaterial) (req : Request)
    (data : FieldData) (e : String) (he : jwt_engine req = some e) :
    (EngineConfigWrite libs keys req data).2 = req.Storage ∨
      (∃ pub, (∃ c err, libs.EncodeJSON c = .error err) ∧
        (EngineConfigWrite libs keys req data).2 = afterKeyPuts libs keys req.Storage e pub) ∨
      (∃ pub enc, (EngineConfigWrite libs keys req data).2 =
        ((afterKeyPuts libs keys req.Storage e pub).Put
          { Key := "config/" ++ e, Value := enc }).2) := by
  unfold EngineConfigWrite
  simp only [he]
  repeat' split
  all_goals first
    | exact Or.inl rfl
    | (rename_i hencode
       exact Or.inr (Or.inl ⟨_, ⟨_, _, hencode⟩, rfl⟩))
    | (rename_i hput
       exact Or.inr (Or.inr ⟨_, _, (congrArg Prod.snd hput).symm⟩))

theorem EngineConfigWrite_no_engine (libs : Libs) (keys : KeyMaterial) (req : Request)
    (data : FieldData) (he : jwt_engine req = none) :
    (EngineConfigWrite libs keys req data).2 = req.Storage := by
  unfold EngineConfigWrite
  simp only [he]

theorem EngineConfigDelete_no_engine (req : Request) (data : FieldData)
    (he : jwt_engine req = none) : (EngineConfigDelete req data).2 = req.Storage := by
  unfold EngineConfigDelete
  simp only [he]

theorem EngineConfigDelete_storage (req : Request) (data : FieldData) (e : String)
    (he : jwt_engine req = some e) :
    (EngineConfigDelete req data).2 =
      (((req.Storage.Delete ("private_key" ++ e)).2.Delete ("public_key" ++ e)).2.Delete
        ("config/" ++ e)).2 := by
  unfold EngineConfigDelete
  simp only [he]

theorem not_mem_engineKeys (e k : String) (hk : k ∉ engineKeys e) :
    k ≠ "private_key" ++ e ∧ k ≠ "public_key" ++ e ∧ k ≠ "config/" ++ e := by
  simp only [engineKeys, List.mem_cons, List.mem_singleton, not_or, List.mem_nil_iff,
    or_false] at hk
  exact hk

/-- Keys derived from two different engine ids never coincide. -/
theorem engineKeys_disjoint (a b k : String) (hab : a ≠ b) (hk : k ∈ engineKeys a) :
    k ∉ engineKeys b := by
  simp only [engineKeys, List.mem_cons, List.mem_singleton, List.mem_nil_iff, or_false] at hk ⊢
  have inj : ∀ p : String, p ++ a ≠ p ++ b :=
    fun p h => hab (string_append_left_cancel p a b h)
  rcases hk with hk | hk | hk <;> subst hk
  · exact not_or.mpr ⟨inj _, not_or.mpr ⟨private_ne_public a b, private_ne_config a b⟩⟩
  · exact not_or.mpr ⟨fun h => private_ne_public b a h.symm,
      not_or.mpr ⟨inj _, public_ne_config a b⟩⟩
  · exact not_or.mpr ⟨fun h => private_ne_config b a h.symm,
      not_or.mpr ⟨fun h => public_ne_config b a h.symm, inj _⟩⟩

theorem afterKeyPuts_entries_of_ne (libs : Libs) (keys : KeyMaterial) (s : Storage)
    (e : String) (pub : Bytes) (k : String)
    (h1 : k ≠ "private_key" ++ e) (h2 : k ≠ "public_key" ++ e) :
    (afterKeyPuts libs keys s e pub).entries k = s.entries k := by
  unfold afterKeyPuts
  rw [Put_entries_of_ne _ _ _ h2, Put_entries_of_ne _ _ _ h1]

theorem afterKeyPuts_putErr (libs : Libs) (keys : KeyMaterial) (s : Storage)
    (e : String) (pub : Bytes) : (afterKeyPuts libs keys s e pub).putErr = s.putErr := by
  unfold afterKeyPuts
  rw [Put_putErr, Put_putErr]

theorem afterKeyPuts_deleteErr (libs : Libs) (keys : KeyMaterial) (s : Storage)
    (e : String) (pub : Bytes) : (afterKeyPuts libs keys s e pub).deleteErr = s.deleteErr := by
  unfold afterKeyPuts
  rw [Put_deleteErr, Put_deleteErr]

/-- An entry under a key that is none of the engine's three keys is left as
it was by `EngineConfigWrite`. -/
theorem EngineConfigWrite_entries_frame (libs : Libs) (keys : KeyMaterial) (req : Request)
    (data : FieldData) (e k : String) (he : jwt_engine req = some e)
    (hk : k ∉ engineKeys e) :
    (EngineConfigWrite libs keys req data).2.entries k = req.Storage.entries k := by
  obtain ⟨h1, h2, h3⟩ := not_mem_engineKeys e k hk
  rcases EngineConfigWrite_storage_cases libs keys req data e he with h | ⟨pub, _, h⟩ |
    ⟨pub, enc, h⟩
  · rw [h]
  · rw [h, afterKeyPuts_entries_of_ne _ _ _ _ _ _ h1 h2]
  · rw [h, Put_entries_of_ne _ _ _ h3, afterKeyPuts_entries_of_ne _ _ _ _ _ _ h1 h2]

/-- An entry under a key that is none of the engine's three keys is left as
it was by `EngineConfigDelete`. -/
theorem EngineConfigDelete_entries_frame (req : Request) (data : FieldData) (e k : String)
    (he : jwt_engine req = some e) (hk : k ∉ engineKeys e) :
    (EngineConfigDelete req data).2.entries k = req.Storage.entries k := by
  obtain ⟨h1, h2, h3⟩ := not_mem_engineKeys e k hk
  rw [EngineConfigDelete_storage req data e he, Delete_entries_of_ne _ _ _ h3,
    Delete_entries_of_ne _ _ _ h2, Delete_entries_of_ne _ _ _ h1]

theorem tripletInv_of_frame (s s2 : Storage) (e : String)
    (hframe : ∀ k ∈ engineKeys e, s2.entries k = s.entries k) (h : tripletInv s e) :
    tripletInv s2 e := by
  unfold tripletInv Storage.present at *
  rw [hframe _ (by simp [engineKeys]), hframe _ (by simp [engineKeys]),
    hframe _ (by simp [engineKeys])]
  exact h

theorem EngineConfigDelete_entries_none (req : Request) (data : FieldData) (e : String)
    (he : jwt_engine req = some e) (hdel : ∀ k, req.Storage.deleteErr k = none) :
    (EngineConfigDelete req data).2.entries ("private_key" ++ e) = none ∧
      (EngineConfigDelete req data).2.entries ("public_key" ++ e) = none ∧
      (EngineConfigDelete req data).2.entries ("config/" ++ e) = none := by
  rw [EngineConfigDelete_storage req data e he]
  refine ⟨?_, ?_, ?_⟩
  · rw [Delete_entries_of_ne _ _ _ (private_ne_config e e),
      Delete_entries_of_ne _ _ _ (private_ne_public e e), Delete_entries_self _ _ (hdel _)]
  · rw [Delete_entries_of_ne _ _ _ (public_ne_config e e),
      Delete_entries_self _ _ (by rw [Delete_deleteErr]; exact hdel _)]
  · rw [Delete_entries_self _ _ (by rw [Delete_deleteErr, Delete_deleteErr]; exact hdel _)]

theorem afterKeyPuts_entries_keys (libs : Libs) (keys : KeyMaterial) (s : Storage)
    (e : String) (pub : Bytes) (hput : ∀ k, s.putErr k = none) :
    ((afterKeyPuts libs keys s e pub).entries ("private_key" ++ e)).isSome = true ∧
      ((afterKeyPuts libs keys s e pub).entries ("public_key" ++ e)).isSome = true := by
  unfold afterKeyPuts
  constructor
  · rw [Put_entries_of_ne _ _ _ (private_ne_public e e)]
    have h := Put_entries_self s
      { Key := "private_key" ++ e,
        Value := libs.EncodeToMemory "RSA PRIVATE KEY" keys.privKeyBytes } (hput _)
    simp only at h
    rw [h]
    rfl
  · have h := Put_entries_self
      (s.Put { Key := "private_key" ++ e,
               Value := libs.EncodeToMemory "RSA PRIVATE KEY" keys.privKeyBytes }).2
      { Key := "public_key" ++ e, Value := libs.EncodeToMemory "RSA PUBLIC KEY" pub }
      (by rw [Put_putErr]; exact hput _)
    simp only at h
    rw [h]
    rfl

theorem runInv_write (libs : Libs) (henc : ∀ c, ∃ bs, libs.EncodeJSON c = .ok bs)
    (s : Storage) (keys : KeyMaterial) (path : String) (data : FieldData) (h : runInv s) :
    runInv (EngineConfigWrite libs keys { Path := path, Storage := s } data).2 := by
  obtain ⟨hput, hdel, hinv⟩ := h
  cases he : jwt_engine { Path := path, Storage := s } with
  | none =>
    rw [EngineConfigWrite_no_engine libs keys _ data he]
    exact ⟨hput, hdel, hinv⟩
  | some A =>
    rcases EngineConfigWrite_storage_cases libs keys { Path := path, Storage := s } data A he
      with h | ⟨pub, ⟨c, err, hc⟩, _⟩ | ⟨pub, enc, h⟩
    · rw [h]
      exact ⟨hput, hdel, hinv⟩
    · obtain ⟨bs, hbs⟩ := henc c
      rw [hbs] at hc
      cases hc
    · refine ⟨?_, ?_, ?_⟩
      · intro k
        rw [h, Put_putErr, afterKeyPuts_putErr]
        exact hput k
      · intro k
        rw [h, Put_deleteErr, afterKeyPuts_deleteErr]
        exact hdel k
      · intro e
        by_cases hAe : A = e
        · subst hAe
          obtain ⟨hpriv, hpub⟩ := afterKeyPuts_entries_keys libs keys s A pub hput
          have hcfg := Put_entries_self (afterKeyPuts libs keys s A pub)
            { Key := "config/" ++ A, Value := enc }
            (by rw [afterKeyPuts_putErr]; exact hput _)
          simp only at hcfg
          have hpriv2 := Put_entries_of_ne (afterKeyPuts libs keys s A pub)
            { Key := "config/" ++ A, Value := enc } ("private_key" ++ A)
            (private_ne_config A A)
          have hpub2 := Put_entries_of_ne (afterKeyPuts libs keys s A pub)
            { Key := "config/" ++ A, Value := enc } ("public_key" ++ A)
            (public_ne_config A A)
          unfold tripletInv Storage.present
          rw [h, hcfg, hpriv2, hpub2, hpriv, hpub]
          simp
        · exact tripletInv_of_frame s _ e
            (fun k hk => EngineConfigWrite_entries_frame libs keys _ data A k he
              (engineKeys_disjoint e A k (fun h2 => hAe h2.symm) hk))
            (hinv e)

theorem runInv_delete (s : Storage) (path : String) (data : FieldData) (h : runInv s) :
    runInv (EngineConfigDelete { Path := path, Storage := s } data).2 := by
  obtain ⟨hput, hdel, hinv⟩ := h
  cases he : jwt_engine { Path := path, Storage := s } with
  | none =>
    rw [EngineConfigDelete_no_engine _ data he]
    exact ⟨hput, hdel, hinv⟩
  | some A =>
    refine ⟨?_, ?_, ?_⟩
    · intro k
      rw [EngineConfigDelete_storage _ data A he, Delete_putErr, Delete_putErr, Delete_putErr]
      exact hput k
    · intro k
      rw [EngineConfigDelete_storage _ data A he, Delete_deleteErr, Delete_deleteErr,
        Delete_deleteErr]
      exact hdel k
    · intro e
      by_cases hAe : A = e
      · subst hAe
        obtain ⟨h1, h2, h3⟩ :=
          EngineConfigDelete_entries_none { Path := path, Storage := s } data A he hdel
        unfold tripletInv Storage.present
        simp [h1, h2, h3]
      · exact tripletInv_of_frame s _ e
          (fun k hk => EngineConfigDelete_entries_frame _ data A k he
            (engineKeys_disjoint e A k (fun h2 => hAe h2.symm) hk))
          (hinv e)

theorem runInv_of_reachable (libs : Libs) (henc : ∀ c, ∃ bs, libs.EncodeJSON c = .ok bs)
    (s : Storage) (h : Reachable libs s) : runInv s := by
  induction h with
  | init s hentries hput hdelete =>
    refine ⟨hput, hdelete, ?_⟩
    intro e
    unfold tripletInv Storage.present
    simp [hentries]
  | write s keys path data _ ih => exact runInv_write libs henc s keys path data ih
  | delete s path data _ ih => exact runInv_delete s path data ih

/-! ## Theorems for the claims -/

/-- C1: when `config/<engineId>` holds an entry that decodes to the record
`c`, `EngineConfigRead` succeeds exactly when the caller role is `"root"` or
is an element of `c.AllowedSubjects`; `"root"` succeeds against an empty
allow-list and `"Alice"` is denied against the allow-list `["alice"]`. -/
theorem EngineConfigRead_succeeds_iff (libs : Libs) (req : Request) (data : FieldData)
    (role e : String) (entry : StorageEntry) (c : EngineConfigStorage)
    (hrole : data.Get "role" = some (.string role))
    (he : jwt_engine req = some e)
    (hget : req.Storage.Get ("config/" ++ e) = .ok (some entry))
    (hdec : libs.DecodeJSON entry.Value = .ok c) :
    ((EngineConfigRead libs req data).1.isOk = true ↔
        (role = "root" ∨ role ∈ c.AllowedSubjects)) ∧
      (role = "root" → c.AllowedSubjects = [] →
        (EngineConfigRead libs req data).1.isOk = true) ∧
      (role = "Alice" → c.AllowedSubjects = ["alice"] →
        (EngineConfigRead libs req data).1.isOk = false) := by
  rw [EngineConfigRead_eq libs req data role e entry c hrole he hget hdec]
  refine ⟨?_, ?_, ?_⟩
  · by_cases h : role = "root" ∨ role ∈ c.AllowedSubjects
    · simp [h, Result.isOk]
    · simp [h, Result.isOk]
  · intro h _
    simp [h, Result.isOk]
  · intro h1 h2
    subst h1
    simp [h2, Result.isOk]

/-- The caller `"Alice"` reading engine `e1`, whose allow-list is `["alice"]`, is denied. -/
theorem EngineConfigRead_succeeds_iff_witness :
    (bobPayload "Alice").Get "role" = some (.string "Alice") ∧
      jwt_engine { Path := "config/e1", Storage := aliceStorage } = some "e1" ∧
      aliceStorage.Get ("config/" ++ "e1") =
        .ok (some { Key := "config/e1", Value := demoEncode aliceConfig }) ∧
      demoLibs.DecodeJSON (demoEncode aliceConfig) = .ok aliceConfig ∧
      (EngineConfigRead demoLibs { Path := "config/e1", Storage := aliceStorage }
        (bobPayload "Alice")).1.isOk = false :=
  ⟨rfl, by decide, by decide, by decide,
    (EngineConfigRead_succeeds_iff demoLibs { Path := "config/e1", Storage := aliceStorage }
      (bobPayload "Alice") "Alice" "e1" { Key := "config/e1", Value := demoEncode aliceConfig }
      aliceConfig rfl (by decide) (by decide) (by decide)).2.2 rfl rfl⟩

/-- C2, as stated, fails at two inputs. On a storage whose puts succeed and
whose gets fail, the write of `(["bob"], "vault", "vault", 3600)` to engine
`e1` succeeds and the read by `"bob"` returns the storage error. With a codec
that does not give the allowed subject back, the write succeeds on the empty
storage and the read by that very subject is denied. -/
theorem EngineConfigWrite_then_Read_fails :
    ((∀ k, getsFail.putErr k = none) ∧
      (EngineConfigWrite demoLibs demoKeys { Path := "config/e1", Storage := getsFail }
        (bobPayload "root")).1.isOk = true ∧
      "bob" ∈ ["bob"] ∧
      (EngineConfigRead demoLibs
        { Path := "config/e1",
          Storage := (EngineConfigWrite demoLibs demoKeys
            { Path := "config/e1", Storage := getsFail } (bobPayload "root")).2 }
        (bobPayload "bob")).1 = .error "get failed") ∧
    ((∀ k, Storage.empty.putErr k = none) ∧
      (EngineConfigWrite lossyLibs demoKeys { Path := "config/e1", Storage := Storage.empty }
        (lossyPayload "root")).1.isOk = true ∧
      "bÿb" ∈ ["bÿb"] ∧
      (EngineConfigRead lossyLibs
        { Path := "config/e1",
          Storage := (EngineConfigWrite lossyLibs demoKeys
            { Path := "config/e1", Storage := Storage.empty } (lossyPayload "root")).2 }
        (lossyPayload "bÿb")).1 =
          .error "User bÿb does not have access to engine e1") :=
  ⟨⟨fun _ => rfl, by decide, by decide, by decide⟩,
    ⟨fun _ => rfl, by decide, by decide, by decide⟩⟩

/-- C2, amended: after a successful `EngineConfigWrite` of the well-typed
payload `(s, i, a, t)` to an engine, when the codec decodes the encoding of
the written record back to that record and the storage get of
`config/<engineId>` does not fail, `EngineConfigRead` of the same engine on
the resulting storage, by a caller that is `"root"` or an element of `s`,
returns exactly the record with that engine id and those four fields. -/
theorem EngineConfigWrite_then_Read (libs : Libs) (keys : KeyMaterial)
    (reqW reqR : Request) (dataW dataR : FieldData)
    (e : String) (s : List String) (i a : String) (t : Int) (caller : String)
    (heW : jwt_engine reqW = some e)
    (hs : dataW.Get "allowed_subjects" = some (.stringSlice s))
    (hi : dataW.Get "issuer" = some (.string i))
    (ha : dataW.Get "audience" = some (.string a))
    (ht : dataW.Get "expiration" = some (.int t))
    (hok : (EngineConfigWrite libs keys reqW dataW).1.isOk = true)
    (hrt : ∀ bs, libs.EncodeJSON
        { Id := e, AllowedSubjects := s, Issuer := i, Audience := a, TTL := t } = .ok bs →
      libs.DecodeJSON bs =
        .ok { Id := e, AllowedSubjects := s, Issuer := i, Audience := a, TTL := t })
    (heR : jwt_engine reqR = some e)
    (hst : reqR.Storage = (EngineConfigWrite libs keys reqW dataW).2)
    (hgetok : reqW.Storage.getErr ("config/" ++ e) = none)
    (hcaller : dataR.Get "role" = some (.string caller))
    (hauth : caller = "root" ∨ caller ∈ s) :
    EngineConfigRead libs reqR dataR =
      (.ok { Data := [("config", .config
          { Id := e, AllowedSubjects := s, Issuer := i, Audience := a, TTL := t })] },
        reqR.Storage) := by
  have hW := EngineConfigWrite_typed libs keys reqW dataW e s i a t heW hs hi ha ht
  rw [hW] at hok hst
  cases hpub : keys.pubKeyBytes with
  | error err => simp [hpub, Result.isOk] at hok
  | ok pubKeyBytes =>
    cases henc : libs.EncodeJSON
        { Id := e, AllowedSubjects := s, Issuer := i, Audience := a, TTL := t } with
    | error err => simp [hpub, henc, Result.isOk] at hok
    | ok encoded =>
      simp only [hpub, henc] at hok hst
      have hfst := Put_fst_eq (afterKeyPuts libs keys reqW.Storage e pubKeyBytes)
        { Key := "config/" ++ e, Value := encoded }
      have hge := Put_getErr (afterKeyPuts libs keys reqW.Storage e pubKeyBytes)
        { Key := "config/" ++ e, Value := encoded }
      cases hput : (afterKeyPuts libs keys reqW.Storage e pubKeyBytes).Put
          { Key := "config/" ++ e, Value := encoded } with
      | mk err s3 =>
        rw [hput] at hfst hge
        cases err with
        | some msg => simp [hput, Result.isOk] at hok
        | none =>
          simp only [hput] at hst
          have hself := Put_entries_self (afterKeyPuts libs keys reqW.Storage e pubKeyBytes)
            { Key := "config/" ++ e, Value := encoded } hfst.symm
          rw [hput] at hself
          have hget : reqR.Storage.Get ("config/" ++ e) =
              .ok (some { Key := "config/" ++ e, Value := encoded }) := by
            rw [hst]
            unfold Storage.Get
            simp only at hge hself
            rw [hge]
            simp only [afterKeyPuts, Put_getErr, hgetok, hself]
          have hread := EngineConfigRead_eq libs reqR dataR caller e
            { Key := "config/" ++ e, Value := encoded }
            { Id := e, AllowedSubjects := s, Issuer := i, Audience := a, TTL := t }
            hcaller heR hget (hrt encoded henc)
          rw [hread]
          simp [hauth]

/-- Writing `(["bob"], "vault", "vault", 3600)` to engine `e1` on the empty storage and
reading as `"bob"` returns that record. -/
theorem EngineConfigWrite_then_Read_witness :
    (EngineConfigWrite demoLibs demoKeys { Path := "config/e1", Storage := Storage.empty }
        (bobPayload "root")).1.isOk = true ∧
      EngineConfigRead demoLibs { Path := "config/e1", Storage := bobStorage }
          (bobPayload "bob") =
        (.ok { Data := [("config", .config
            { Id := "e1", AllowedSubjects := ["bob"], Issuer := "vault", Audience := "vault",
              TTL := 3600 })] },
          bobStorage) :=
  ⟨by decide,
    EngineConfigWrite_then_Read demoLibs demoKeys
      { Path := "config/e1", Storage := Storage.empty }
      { Path := "config/e1", Storage := bobStorage } (bobPayload "root") (bobPayload "bob")
      "e1" ["bob"] "vault" "vault" 3600 "bob" (by decide) rfl rfl rfl rfl (by decide)
      (fun bs h => by
        have h2 : bs = demoEncode bobConfig := by
          simp only [demoLibs] at h
          injection h with h3
          exact h3.symm
        subst h2
        decide)
      (by decide) rfl rfl rfl (Or.inr (by decide))⟩

/-- C3: with no entry under `config/e1`, `EngineConfigRead` by `"root"`
returns the error `No config found for engine e1`, but by the caller `"bob"`
it panics on the nil entry instead of returning an error. -/
theorem EngineConfigRead_absent_nonroot_panics :
    (EngineConfigRead demoLibs { Path := "config/e1", Storage := Storage.empty }
        (bobPayload "root")).1 = .error "No config found for engine e1" ∧
      (EngineConfigRead demoLibs { Path := "config/e1", Storage := Storage.empty }
        (bobPayload "bob")).1 = .panic "nil pointer dereference" ∧
      (EngineConfigRead demoLibs { Path := "config/e1", Storage := Storage.empty }
        (bobPayload "bob")).1.isError = false := by
  decide

/-- C4: when any of the four payload fields fails its type assertion,
`EngineConfigWrite` returns an error and the storage is exactly the one it was
given: entries (the config record and the key envelopes included) are
untouched. -/
theorem EngineConfigWrite_validation_failure (libs : Libs) (keys : KeyMaterial) (req : Request)
    (data : FieldData) (e : String) (v1 v2 v3 v4 : Dyn)
    (he : jwt_engine req = some e)
    (h1 : data.Get "allowed_subjects" = some v1)
    (h2 : data.Get "issuer" = some v2)
    (h3 : data.Get "audience" = some v3)
    (h4 : data.Get "expiration" = some v4)
    (hbad : assertStringSlice v1 = none ∨ assertString v2 = none ∨
      assertString v3 = none ∨ assertInt v4 = none) :
    (EngineConfigWrite libs keys req data).1.isError = true ∧
      (EngineConfigWrite libs keys req data).2 = req.Storage := by
  unfold EngineConfigWrite
  simp only [he, h1, h2, h3, h4]
  cases c1 : assertStringSlice v1 with
  | none => simp [Result.isError]
  | some xs =>
    cases c2 : assertString v2 with
    | none => simp [Result.isError]
    | some i =>
      cases c3 : assertString v3 with
      | none => simp [Result.isError]
      | some a =>
        cases c4 : assertInt v4 with
        | none => simp [Result.isError]
        | some t => simp [c1, c2, c3, c4] at hbad

/-- A payload whose `allowed_subjects` is a slice holding a non-string element is refused
and leaves the configured engine `e1` as it was. -/
theorem EngineConfigWrite_validation_failure_witness :
    assertStringSlice (.ifaceSlice [.string "bob", .int 3]) = none ∧
      (EngineConfigWrite demoLibs demoKeys { Path := "config/e1", Storage := bobStorage }
        (payload (.ifaceSlice [.string "bob", .int 3]) (.string "vault") (.string "vault")
          (.int 3600) .nil)).1.isError = true ∧
      (EngineConfigWrite demoLibs demoKeys { Path := "config/e1", Storage := bobStorage }
        (payload (.ifaceSlice [.string "bob", .int 3]) (.string "vault") (.string "vault")
          (.int 3600) .nil)).2 = bobStorage :=
  ⟨rfl,
    EngineConfigWrite_validation_failure demoLibs demoKeys
      { Path := "config/e1", Storage := bobStorage }
      (payload (.ifaceSlice [.string "bob", .int 3]) (.string "vault") (.string "vault")
        (.int 3600) .nil)
      "e1" (.ifaceSlice [.string "bob", .int 3]) (.string "vault") (.string "vault") (.int 3600)
      (by decide) rfl rfl rfl rfl (Or.inl rfl)⟩

/-- C5: on a storage where the puts of both key envelopes fail,
`EngineConfigWrite` still answers `Config Set` (and stores the config record
without its keys); on a storage where all three deletes fail,
`EngineConfigDelete` still answers `Config Deleted` (and the three entries
remain). Only the error of the config put is returned. -/
theorem EngineConfigWrite_Delete_swallow_errors :
    (EngineConfigWrite demoLibs demoKeys { Path := "config/e1", Storage := keyPutsFail }
        (bobPayload "root")).1 = .ok { Data := [("config", .string "Config Set")] } ∧
      (EngineConfigWrite demoLibs demoKeys { Path := "config/e1", Storage := keyPutsFail }
        (bobPayload "root")).2.present "private_keye1" = false ∧
      (EngineConfigWrite demoLibs demoKeys { Path := "config/e1", Storage := keyPutsFail }
        (bobPayload "root")).2.present "config/e1" = true ∧
      (EngineConfigDelete { Path := "config/e1", Storage := deletesFail }
        (bobPayload "root")).1 = .ok { Data := [("config", .string "Config Deleted")] } ∧
      (EngineConfigDelete { Path := "config/e1", Storage := deletesFail }
        (bobPayload "root")).2.present "config/e1" = true ∧
      (EngineConfigWrite demoLibs demoKeys
        { Path := "config/e1",
          Storage := { Storage.empty with putErr := fun _ => some "put failed" } }
        (bobPayload "root")).1 = .error "put failed" := by
  decide

/-- C6: in every storage reachable from an empty storage by calls of
`EngineConfigWrite` and `EngineConfigDelete` on arbitrary engine ids, with
puts and deletes succeeding (and the JSON encoder returning bytes for every
record), `config/<id>` is present exactly when both `private_key<id>` and
`public_key<id>` are, for every engine id. -/
theorem reachable_config_iff_keys (libs : Libs)
    (henc : ∀ c, ∃ bs, libs.EncodeJSON c = .ok bs)
    (s : Storage) (h : Reachable libs s) (e : String) :
    s.present ("config/" ++ e) = true ↔
      (s.present ("private_key" ++ e) = true ∧ s.present ("public_key" ++ e) = true) :=
  (runInv_of_reachable libs henc s h).2.2 e

/-- The storage reached by one write to engine `e1` holds the config record and both key
envelopes. -/
theorem reachable_config_iff_keys_witness :
    Reachable demoLibs bobStorage ∧ bobStorage.present ("config/" ++ "e1") = true ∧
      (bobStorage.present ("config/" ++ "e1") = true ↔
        (bobStorage.present ("private_key" ++ "e1") = true ∧
          bobStorage.present ("public_key" ++ "e1") = true)) :=
  ⟨Reachable.write Storage.empty demoKeys "config/e1" (bobPayload "root")
      (Reachable.init Storage.empty (fun _ => rfl) (fun _ => rfl) (fun _ => rfl)),
    by decide,
    reachable_config_iff_keys demoLibs (fun c => ⟨demoEncode c, rfl⟩) bobStorage
      (Reachable.write Storage.empty demoKeys "config/e1" (bobPayload "root")
        (Reachable.init Storage.empty (fun _ => rfl) (fun _ => rfl) (fun _ => rfl)))
      "e1"⟩

/-- C7: for a caller other than `"root"` and two storages whose
`config/<engineId>` entries decode to records that do not list the caller,
`EngineConfigRead` returns the same result in both: the error naming the
caller and the engine id, which contains nothing of either record. -/
theorem EngineConfigRead_denied_uniform (libs : Libs) (req1 req2 : Request)
    (data1 data2 : FieldData) (role e : String) (entry1 entry2 : StorageEntry)
    (c1 c2 : EngineConfigStorage)
    (hnotroot : role ≠ "root")
    (hrole1 : data1.Get "role" = some (.string role))
    (hrole2 : data2.Get "role" = some (.string role))
    (he1 : jwt_engine req1 = some e) (he2 : jwt_engine req2 = some e)
    (hget1 : req1.Storage.Get ("config/" ++ e) = .ok (some entry1))
    (hget2 : req2.Storage.Get ("config/" ++ e) = .ok (some entry2))
    (hdec1 : libs.DecodeJSON entry1.Value = .ok c1)
    (hdec2 : libs.DecodeJSON entry2.Value = .ok c2)
    (hdeny1 : role ∉ c1.AllowedSubjects) (hdeny2 : role ∉ c2.AllowedSubjects) :
    (EngineConfigRead libs req1 data1).1 = (EngineConfigRead libs req2 data2).1 ∧
      (EngineConfigRead libs req1 data1).1 =
        .error ("User " ++ role ++ " does not have access to engine " ++ e) := by
  rw [EngineConfigRead_eq libs req1 data1 role e entry1 c1 hrole1 he1 hget1 hdec1,
    EngineConfigRead_eq libs req2 data2 role e entry2 c2 hrole2 he2 hget2 hdec2]
  simp [hnotroot, hdeny1, hdeny2]

/-- The caller `"carol"` gets the same error from two storages holding different records
for engine `e1`. -/
theorem EngineConfigRead_denied_uniform_witness :
    (EngineConfigRead demoLibs { Path := "config/e1", Storage := aliceStorage }
        (bobPayload "carol")).1 =
      (EngineConfigRead demoLibs { Path := "config/e1", Storage := bobStorage }
        (bobPayload "carol")).1 ∧
    (EngineConfigRead demoLibs { Path := "config/e1", Storage := aliceStorage }
        (bobPayload "carol")).1 =
      .error ("User " ++ "carol" ++ " does not have access to engine " ++ "e1") :=
  EngineConfigRead_denied_uniform demoLibs { Path := "config/e1", Storage := aliceStorage }
    { Path := "config/e1", Storage := bobStorage } (bobPayload "carol") (bobPayload "carol")
    "carol" "e1" { Key := "config/e1", Value := demoEncode aliceConfig }
    { Key := "config/e1", Value := demoEncode bobConfig } aliceConfig bobConfig
    (by decide) rfl rfl (by decide) (by decide) (by decide) (by decide) (by decide) (by decide)
    (by decide) (by decide)

/-- C8: after `EngineConfigDelete` of an engine on a storage whose deletes
succeed, none of `private_key<id>`, `public_key<id>`, `config/<id>` is
present, and `EngineConfigExistenceCheck` of that engine on the resulting
storage returns `false` (with a nil error when the read does not fail). -/
theorem EngineConfigDelete_absent (req req2 : Request) (data data2 : FieldData) (e : String)
    (he : jwt_engine req = some e)
    (hdel : ∀ k, req.Storage.deleteErr k = none)
    (he2 : jwt_engine req2 = some e)
    (hst : req2.Storage = (EngineConfigDelete req data).2) :
    req2.Storage.present ("private_key" ++ e) = false ∧
      req2.Storage.present ("public_key" ++ e) = false ∧
      req2.Storage.present ("config/" ++ e) = false ∧
      (EngineConfigExistenceCheck req2 data2).map Prod.fst = some false ∧
      (req2.Storage.getErr ("config/" ++ e) = none →
        EngineConfigExistenceCheck req2 data2 = some (false, none)) := by
  obtain ⟨h1, h2, h3⟩ := EngineConfigDelete_entries_none req data e he hdel
  have hpriv : req2.Storage.entries ("private_key" ++ e) = none := by rw [hst, h1]
  have hpub : req2.Storage.entries ("public_key" ++ e) = none := by rw [hst, h2]
  have hcfg : req2.Storage.entries ("config/" ++ e) = none := by rw [hst, h3]
  refine ⟨by simp [Storage.present, hpriv], by simp [Storage.present, hpub],
    by simp [Storage.present, hcfg], ?_, ?_⟩
  · unfold EngineConfigExistenceCheck Storage.Get
    simp only [he2, hcfg]
    cases hg : req2.Storage.getErr ("config/" ++ e) <;> simp
  · intro hg
    unfold EngineConfigExistenceCheck Storage.Get
    simp only [he2, hcfg, hg]

/-- Deleting the configured engine `e1` removes its config record. -/
theorem EngineConfigDelete_absent_witness :
    jwt_engine { Path := "config/e1", Storage := bobStorage } = some "e1" ∧
      bobStorage.present ("config/" ++ "e1") = true ∧
      (EngineConfigDelete { Path := "config/e1", Storage := bobStorage }
        (bobPayload "root")).2.present ("config/" ++ "e1") = false :=
  ⟨by decide, by decide,
    (EngineConfigDelete_absent { Path := "config/e1", Storage := bobStorage }
      { Path := "config/e1",
        Storage := (EngineConfigDelete { Path := "config/e1", Storage := bobStorage }
          (bobPayload "root")).2 }
      (bobPayload "root") (bobPayload "root") "e1" (by decide) (fun _ => rfl) (by decide)
      rfl).2.2.1⟩

/-- C9: for distinct engine ids `A` and `B`, `EngineConfigWrite` and
`EngineConfigDelete` on `A` leave the entries under `config/B`,
`private_keyB` and `public_keyB` as they were, and no storage key derived
from `A` is a storage key derived from `B`. -/
theorem engine_operations_frame (libs : Libs) (keys : KeyMaterial) (req : Request)
    (data : FieldData) (A B : String) (hA : jwt_engine req = some A) (hAB : A ≠ B) :
    (∀ k ∈ engineKeys B,
        (EngineConfigWrite libs keys req data).2.entries k = req.Storage.entries k) ∧
      (∀ k ∈ engineKeys B,
        (EngineConfigDelete req data).2.entries k = req.Storage.entries k) ∧
      (∀ k ∈ engineKeys A, k ∉ engineKeys B) := by
  refine ⟨?_, ?_, ?_⟩
  · intro k hk
    exact EngineConfigWrite_entries_frame libs keys req data A k hA
      (engineKeys_disjoint B A k (fun h => hAB h.symm) hk)
  · intro k hk
    exact EngineConfigDelete_entries_frame req data A k hA
      (engineKeys_disjoint B A k (fun h => hAB h.symm) hk)
  · intro k hk
    exact engineKeys_disjoint A B k hAB hk

/-- Deleting engine `e2` leaves the config record of engine `e1` in place. -/
theorem engine_operations_frame_witness :
    jwt_engine { Path := "config/e2", Storage := bobStorage } = some "e2" ∧
      (EngineConfigDelete { Path := "config/e2", Storage := bobStorage }
        (bobPayload "root")).2.entries "config/e1" = bobStorage.entries "config/e1" ∧
      bobStorage.present "config/e1" = true :=
  ⟨by decide,
    (engine_operations_frame demoLibs demoKeys { Path := "config/e2", Storage := bobStorage }
      (bobPayload "root") "e2" "e1" (by decide) (by decide)).2.1 "config/e1" (by decide),
    by decide⟩

/-- C10: the result of `EngineConfigWrite` depends on the fields
`allowed_subjects`, `issuer`, `audience` and `expiration`, and the result of
`EngineConfigRead` on the field `role`, and none of these five names is a key
of the schema declared by `engineConfigPath`, whose keys are `TTL`,
`Audience`, `Issuer` and `Allowed_Subjects`. -/
theorem looked_up_fields_undeclared :
    declaredFields = ["TTL", "Audience", "Issuer", "Allowed_Subjects"] ∧
      (∀ k ∈ ["allowed_subjects", "issuer", "audience", "expiration"],
        dependsOn (fun d => (EngineConfigWrite demoLibs demoKeys
          { Path := "config/e1", Storage := Storage.empty } d).1) k ∧ k ∉ declaredFields) ∧
      (dependsOn (fun d => (EngineConfigRead demoLibs
          { Path := "config/e1", Storage := bobStorage } d).1) "role" ∧
        "role" ∉ declaredFields) := by
  refine ⟨rfl, ?_, ⟨⟨bobPayload "bob", bobPayload "carol", ?_, by decide⟩, by decide⟩⟩
  · intro k hk
    simp only [List.mem_cons, List.mem_singleton, List.mem_nil_iff, or_false] at hk
    rcases hk with hk | hk | hk | hk <;> subst hk
    · refine ⟨⟨bobPayload "root", payload .nil (.string "vault") (.string "vault") (.int 3600)
        (.string "root"), ?_, by decide⟩, by decide⟩
      intro k2 hk2
      simp [bobPayload, payload, hk2]
    · refine ⟨⟨bobPayload "root", payload (.stringSlice ["bob"]) .nil (.string "vault")
        (.int 3600) (.string "root"), ?_, by decide⟩, by decide⟩
      intro k2 hk2
      simp [bobPayload, payload, hk2]
    · refine ⟨⟨bobPayload "root", payload (.stringSlice ["bob"]) (.string "vault") .nil
        (.int 3600) (.string "root"), ?_, by decide⟩, by decide⟩
      intro k2 hk2
      simp [bobPayload, payload, hk2]
    · refine ⟨⟨bobPayload "root", payload (.stringSlice ["bob"]) (.string "vault")
        (.string "vault") .nil (.string "root"), ?_, by decide⟩, by decide⟩
      intro k2 hk2
      simp [bobPayload, payload, hk2]
  · intro k2 hk2
    simp [bobPayload, payload, hk2]

end VaultBackend
